import Mathlib

/-!
Shallow embedding of the mango-v4 sources under verification: oracle type
detection (programs/mango-v4/src/state/oracle.rs), the perp order cancel
instruction (programs/mango-v4/src/instructions/perp_cancel_order.rs), and
the client helpers for liquidation health-check account derivation and
serum3 bulk cancel (client/src/client.rs). Pubkeys and byte values are
modelled as Nat, i128 order ids as Int.
-/

namespace MangoV4

/-- Error codes. The Rust source collapses the invalid-order-id and
invalid-owner exits of perp_cancel_order into MangoError::SomeError, naming
the intended code in a source comment at each site; the embedding
distinguishes those exit points by the commented names, matching the error
taxonomy of the specification. -/
inductive MangoError where
  | IsBankrupt
  | InvalidOrderId
  | InvalidOwner
  | OrderNotOnBook
  | InvalidSlot
  | UnknownOracleType
deriving DecidableEq

/-- Oracle account formats known to the program (state/oracle.rs). -/
inductive OracleType where
  | Stub
  | Pyth
deriving DecidableEq

/-- Numeric value of pyth_client::MAGIC, the four-byte magic of a Pyth
price account. -/
def PYTH_MAGIC : Nat := 0xa1b2c3d4

/-- Anchor account discriminator of StubOracle: the first eight bytes of
the sha256 digest of the string account:StubOracle. -/
def stubOracleDiscriminator : List Nat := [224, 251, 254, 99, 177, 174, 137, 4]

/-- u32::from_le_bytes applied to a four-byte list. -/
def u32_from_le_bytes : List Nat → Nat
  | [b0, b1, b2, b3] => b0 + 2 ^ 8 * b1 + 2 ^ 16 * b2 + 2 ^ 24 * b3
  | _ => 0

/-- determine_oracle_type from state/oracle.rs. The result is none exactly
where the Rust code panics: slicing data[0..4] requires at least 4 bytes and
slicing data[0..8] requires at least 8, each slice taken only when the code
reaches it. Otherwise the classification or the UnknownOracleType error is
returned, mirroring the source branch order: Pyth magic first, then the
StubOracle discriminator. -/
def determine_oracle_type (data : List Nat) : Option (Except MangoError OracleType) :=
  if data.length < 4 then none
  else if u32_from_le_bytes (data.take 4) = PYTH_MAGIC then some (Except.ok OracleType.Pyth)
  else if data.length < 8 then none
  else if data.take 8 = stubOracleDiscriminator then some (Except.ok OracleType.Stub)
  else some (Except.error MangoError.UnknownOracleType)

end MangoV4

namespace MangoV4

/-- C5 (amended): for byte strings of at least 8 bytes — long enough for the
code to inspect both tags without panicking — determine_oracle_type returns
the UnknownOracleType error exactly when neither the Pyth magic matches the
first four bytes nor the StubOracle discriminator matches the first eight;
in particular such inputs are never classified into a defaulted format. -/
theorem determine_oracle_type_unknown_iff_no_tag (data : List Nat)
    (h : 8 ≤ data.length) :
    determine_oracle_type data = some (Except.error MangoError.UnknownOracleType) ↔
      u32_from_le_bytes (data.take 4) ≠ PYTH_MAGIC ∧
        data.take 8 ≠ stubOracleDiscriminator := by
  have h4 : ¬ data.length < 4 := by omega
  have h8 : ¬ data.length < 8 := by omega
  unfold determine_oracle_type
  rw [if_neg h4, if_neg h8]
  constructor
  · intro hres
    by_cases hp : u32_from_le_bytes (data.take 4) = PYTH_MAGIC
    · rw [if_pos hp] at hres
      exact absurd hres (by simp)
    · rw [if_neg hp] at hres
      by_cases hs : data.take 8 = stubOracleDiscriminator
      · rw [if_pos hs] at hres
        exact absurd hres (by simp)
      · exact ⟨hp, hs⟩
  · intro hcond
    rw [if_neg hcond.1, if_neg hcond.2]

/-- C5 witness: a concrete 8-byte input matching no tag is classified as
UnknownOracleType, via the amended theorem. -/
theorem determine_oracle_type_unknown_iff_no_tag_witness :
    determine_oracle_type [0, 0, 0, 0, 0, 0, 0, 0] =
      some (Except.error MangoError.UnknownOracleType) :=
  (determine_oracle_type_unknown_iff_no_tag [0, 0, 0, 0, 0, 0, 0, 0]
    (by decide)).2 (by decide)

/-- C5 counterexample: the seven zero bytes match no known tag, yet the code
does not return UnknownOracleType there — it panics while slicing the first
eight bytes, so the claim as stated over every byte string is false. -/
theorem determine_oracle_type_no_tag_without_unknown :
    u32_from_le_bytes (([0, 0, 0, 0, 0, 0, 0] : List Nat).take 4) ≠ PYTH_MAGIC ∧
    ([0, 0, 0, 0, 0, 0, 0] : List Nat).take 8 ≠ stubOracleDiscriminator ∧
    determine_oracle_type [0, 0, 0, 0, 0, 0, 0] ≠
      some (Except.error MangoError.UnknownOracleType) := by
  refine ⟨by decide, by decide, ?_⟩
  have : determine_oracle_type [0, 0, 0, 0, 0, 0, 0] = none := rfl
  rw [this]
  simp

/-- C6 (amended): determine_oracle_type is deterministic on all inputs —
identical byte strings of any length, shorter than 8 bytes included, always
classify identically — and it is total, returning without panicking, on
every input of at least 8 bytes; inputs shorter than that can hit a
panicking slice instead. -/
theorem determine_oracle_type_deterministic_total (d1 d2 : List Nat)
    (heq : d1 = d2) :
    determine_oracle_type d1 = determine_oracle_type d2 ∧
      (8 ≤ d1.length → (determine_oracle_type d1).isSome = true) := by
  subst heq
  refine ⟨rfl, ?_⟩
  intro hlen
  have h4 : ¬ d1.length < 4 := by omega
  have h8 : ¬ d1.length < 8 := by omega
  unfold determine_oracle_type
  rw [if_neg h4]
  by_cases hp : u32_from_le_bytes (d1.take 4) = PYTH_MAGIC
  · rw [if_pos hp]
    rfl
  · rw [if_neg hp, if_neg h8]
    by_cases hs : d1.take 8 = stubOracleDiscriminator
    · rw [if_pos hs]
      rfl
    · rw [if_neg hs]
      rfl

/-- C6 witness: determinism and totality at a concrete 8-byte input. -/
theorem determine_oracle_type_deterministic_total_witness :
    determine_oracle_type [1, 2, 3, 4, 5, 6, 7, 8] =
        determine_oracle_type [1, 2, 3, 4, 5, 6, 7, 8] ∧
      (8 ≤ ([1, 2, 3, 4, 5, 6, 7, 8] : List Nat).length →
        (determine_oracle_type [1, 2, 3, 4, 5, 6, 7, 8]).isSome = true) :=
  determine_oracle_type_deterministic_total [1, 2, 3, 4, 5, 6, 7, 8]
    [1, 2, 3, 4, 5, 6, 7, 8] rfl

/-- C6 counterexample: on the empty byte string the code panics (slicing
data[0..4] of an empty slice), modelled as none, so determine_oracle_type is
not total over inputs of every length as the claim states. -/
theorem determine_oracle_type_nil_panics :
    determine_oracle_type [] = none := rfl

/-- C10: the Pyth check has priority — whenever the first four bytes decode
to the Pyth magic, the result is Pyth, and the Stub classification is only
reachable when the Pyth magic comparison fails. -/
theorem determine_oracle_type_pyth_priority :
    (∀ data : List Nat, 4 ≤ data.length →
        u32_from_le_bytes (data.take 4) = PYTH_MAGIC →
        determine_oracle_type data = some (Except.ok OracleType.Pyth)) ∧
      (∀ data : List Nat,
        determine_oracle_type data = some (Except.ok OracleType.Stub) →
        u32_from_le_bytes (data.take 4) ≠ PYTH_MAGIC) := by
  constructor
  · intro data hlen hmagic
    have h4 : ¬ data.length < 4 := by omega
    unfold determine_oracle_type
    rw [if_neg h4, if_pos hmagic]
  · intro data hres hmagic
    unfold determine_oracle_type at hres
    by_cases h4 : data.length < 4
    · rw [if_pos h4] at hres
      exact absurd hres (by simp)
    · rw [if_neg h4, if_pos hmagic] at hres
      exact absurd hres (by simp)

/-- C10 witness: the four little-endian magic bytes alone are classified as
Pyth. -/
theorem determine_oracle_type_pyth_priority_witness :
    determine_oracle_type [212, 195, 178, 161] = some (Except.ok OracleType.Pyth) :=
  determine_oracle_type_pyth_priority.1 [212, 195, 178, 161] (by decide) (by decide)

/-- Side of the perp order book (Bid or Ask). -/
inductive Side where
  | bid
  | ask
deriving DecidableEq

/-- Resting perp order as stored in a book tree, with the fields named by the
specification, section 3: owner account key, owner-local slot index, order
id, price, quantity, insertion sequence. -/
structure Order where
  owner : Nat
  owner_slot : Nat
  order_id : Int
  price : Nat
  quantity : Int
  seq : Nat
deriving DecidableEq

/-- Modelled from the spec: one entry of the per-account open-order tracking
list of a MangoAccount (sections 3 and 4.3) — the market, the authoritative
side and the order id of one resting order. The backing Rust type lives in
state/mango_account.rs, which is not among the sources under verification. -/
structure OpenOrderSlot where
  market : Nat
  side : Side
  order_id : Int
deriving DecidableEq

/-- Modelled from the spec: the perp open-order state of a MangoAccount — a
fixed-capacity sparse slot list (inactive slots are none) together with the
reserved collateral bookkeeping that a removed order releases (section 4.3).
The backing Rust type lives in state/mango_account.rs, not under the
verified sources. -/
structure MangoAccountPerps where
  oos : List (Option OpenOrderSlot)
  reserved : Int
deriving DecidableEq

/-- Scan of the tracking list for the first active slot carrying the given
market and order id, yielding its stored side. -/
def findOrderSideAux (mkt : Nat) (oid : Int) :
    List (Option OpenOrderSlot) → Option Side
  | [] => none
  | none :: rest => findOrderSideAux mkt oid rest
  | some sl :: rest =>
      if sl.market = mkt ∧ sl.order_id = oid then some sl.side
      else findOrderSideAux mkt oid rest

/-- Modelled from the spec: find_order_side consults only the owning account
tracking list, never a book tree, and returns the stored side of the slot
whose market and order id match (section 4.3). -/
def MangoAccountPerps.find_order_side (p : MangoAccountPerps) (mkt : Nat)
    (oid : Int) : Option Side :=
  findOrderSideAux mkt oid p.oos

/-- Modelled from the spec: remove_order frees the owner tracking slot at the
given index and releases the reserved collateral of the removed quantity
(section 4.3); the slot must currently be active. -/
def MangoAccountPerps.remove_order (p : MangoAccountPerps) (slot : Nat)
    (qty : Int) : Except MangoError MangoAccountPerps :=
  match p.oos.get? slot with
  | some (some _) =>
      Except.ok { oos := p.oos.set slot none, reserved := p.reserved - qty }
  | _ => Except.error MangoError.InvalidSlot

/-- Perp order book of one market: a bid tree and an ask tree, modelled as
lists of orders. -/
structure Book where
  bids : List Order
  asks : List Order
deriving DecidableEq

/-- The orders resting on one side of the book. -/
def Book.sideOrders (b : Book) : Side → List Order
  | Side.bid => b.bids
  | Side.ask => b.asks

/-- Removal of the first order with the given id from a tree, returning the
removed order and the remaining tree. -/
def removeById (oid : Int) : List Order → Option (Order × List Order)
  | [] => none
  | o :: rest =>
      if o.order_id = oid then some (o, rest)
      else
        match removeById oid rest with
        | some (f, rest2) => some (f, o :: rest2)
        | none => none

/-- Modelled from the spec: Book.cancel_order searches only the tree of the
given side for the order id, removes the order and returns it, and errors
when the id is not resting on that side (section 4.3; the backing Rust code
lives in state/orderbook/book.rs, not under the verified sources). -/
def Book.cancel_order (b : Book) (oid : Int) (s : Side) :
    Except MangoError (Order × Book) :=
  match s with
  | Side.bid =>
      match removeById oid b.bids with
      | some (o, rest) => Except.ok (o, { b with bids := rest })
      | none => Except.error MangoError.OrderNotOnBook
  | Side.ask =>
      match removeById oid b.asks with
      | some (o, rest) => Except.ok (o, { b with asks := rest })
      | none => Except.error MangoError.OrderNotOnBook

/-- State read and written by the perp cancel instruction: the calling
account key, its bankruptcy flag (a u8, nonzero when bankrupt), its perp
tracking state, and the book of the market. -/
structure PerpCancelState where
  account_key : Nat
  is_bankrupt : Nat
  perps : MangoAccountPerps
  book : Book
deriving DecidableEq

/-- perp_cancel_order from instructions/perp_cancel_order.rs, with the same
sequencing as the source: the bankruptcy gate first, then the side lookup in
the per-account tracking list, then the book removal on the resolved side,
then the owner re-verification, then the tracking-slot removal. -/
def perp_cancel_order (st : PerpCancelState) (mkt : Nat) (oid : Int) :
    Except MangoError PerpCancelState :=
  if st.is_bankrupt ≠ 0 then Except.error MangoError.IsBankrupt
  else
    match st.perps.find_order_side mkt oid with
    | none => Except.error MangoError.InvalidOrderId
    | some side =>
        match st.book.cancel_order oid side with
        | Except.error e => Except.error e
        | Except.ok (o, b2) =>
            if o.owner = st.account_key then
              match st.perps.remove_order o.owner_slot o.quantity with
              | Except.ok p2 => Except.ok { st with perps := p2, book := b2 }
              | Except.error e => Except.error e
            else Except.error MangoError.InvalidOwner

/-- Modelled from the spec: the enclosing transaction mechanism commits the
mutated state only when the instruction succeeds; on any error, every
mutation of the unit is discarded as a whole (sections 5 and 7). -/
def perp_cancel_committed (st : PerpCancelState) (mkt : Nat) (oid : Int) :
    PerpCancelState :=
  match perp_cancel_order st mkt oid with
  | Except.ok st2 => st2
  | Except.error _ => st

/-- C1: when the order id is absent from the calling account tracking list,
a non-bankrupt perp cancel fails with InvalidOrderId — the side is resolved
from that list alone, and the committed state, the book included, is exactly
the state before the call. -/
theorem perp_cancel_order_missing_id_fails (st : PerpCancelState) (mkt : Nat)
    (oid : Int) (hb : st.is_bankrupt = 0)
    (hfind : st.perps.find_order_side mkt oid = none) :
    perp_cancel_order st mkt oid = Except.error MangoError.InvalidOrderId ∧
      perp_cancel_committed st mkt oid = st := by
  have hmain : perp_cancel_order st mkt oid = Except.error MangoError.InvalidOrderId := by
    unfold perp_cancel_order
    rw [if_neg (by omega), hfind]
  refine ⟨hmain, ?_⟩
  unfold perp_cancel_committed
  rw [hmain]

/-- C1 witness: a concrete non-bankrupt account with an empty tracking list
is refused with InvalidOrderId and the state is unchanged. -/
theorem perp_cancel_order_missing_id_fails_witness :
    perp_cancel_order ⟨1, 0, ⟨[], 0⟩, ⟨[], []⟩⟩ 3 7 =
        Except.error MangoError.InvalidOrderId ∧
      perp_cancel_committed ⟨1, 0, ⟨[], 0⟩, ⟨[], []⟩⟩ 3 7 =
        ⟨1, 0, ⟨[], 0⟩, ⟨[], []⟩⟩ :=
  perp_cancel_order_missing_id_fails ⟨1, 0, ⟨[], 0⟩, ⟨[], []⟩⟩ 3 7 rfl rfl

/-- C2: when the tracking list resolves a side for the order id but the
order removed from the book stores a different owner key than the calling
account, the instruction fails with InvalidOwner. -/
theorem perp_cancel_order_owner_mismatch_fails (st : PerpCancelState)
    (mkt : Nat) (oid : Int) (side : Side) (o : Order) (b2 : Book)
    (hb : st.is_bankrupt = 0)
    (hfind : st.perps.find_order_side mkt oid = some side)
    (hcancel : st.book.cancel_order oid side = Except.ok (o, b2))
    (howner : o.owner ≠ st.account_key) :
    perp_cancel_order st mkt oid = Except.error MangoError.InvalidOwner := by
  have hb2 : ¬ st.is_bankrupt ≠ 0 := by omega
  unfold perp_cancel_order
  simp only [if_neg hb2, hfind, hcancel, if_neg howner]

/-- C2 witness: account 1 holds a tracking entry for order id 5 of market 7,
but the resting order with id 5 belongs to account 2; the cancel fails with
InvalidOwner. -/
theorem perp_cancel_order_owner_mismatch_fails_witness :
    perp_cancel_order
        ⟨1, 0, ⟨[some ⟨7, Side.bid, 5⟩], 0⟩, ⟨[⟨2, 0, 5, 10, 1, 0⟩], []⟩⟩ 7 5 =
      Except.error MangoError.InvalidOwner :=
  perp_cancel_order_owner_mismatch_fails
    ⟨1, 0, ⟨[some ⟨7, Side.bid, 5⟩], 0⟩, ⟨[⟨2, 0, 5, 10, 1, 0⟩], []⟩⟩ 7 5
    Side.bid ⟨2, 0, 5, 10, 1, 0⟩ ⟨[], []⟩ rfl rfl rfl (by decide)

/-- C3: a bankrupt account is refused with IsBankrupt — the StateError of
the specification taxonomy — on any perp cancel, whatever the order id, and
the committed state is exactly the state before the call: its book presence
stays frozen. -/
theorem perp_cancel_order_bankrupt_refused (st : PerpCancelState) (mkt : Nat)
    (oid : Int) (hb : st.is_bankrupt ≠ 0) :
    perp_cancel_order st mkt oid = Except.error MangoError.IsBankrupt ∧
      perp_cancel_committed st mkt oid = st := by
  have hmain : perp_cancel_order st mkt oid = Except.error MangoError.IsBankrupt := by
    unfold perp_cancel_order
    rw [if_pos hb]
  refine ⟨hmain, ?_⟩
  unfold perp_cancel_committed
  rw [hmain]

/-- C3 witness: a concrete bankrupt account is refused even though its
tracking list and the book would let the cancel succeed otherwise. -/
theorem perp_cancel_order_bankrupt_refused_witness :
    perp_cancel_order
        ⟨1, 1, ⟨[some ⟨7, Side.bid, 5⟩], 0⟩, ⟨[⟨1, 0, 5, 10, 1, 0⟩], []⟩⟩ 7 5 =
        Except.error MangoError.IsBankrupt ∧
      perp_cancel_committed
          ⟨1, 1, ⟨[some ⟨7, Side.bid, 5⟩], 0⟩, ⟨[⟨1, 0, 5, 10, 1, 0⟩], []⟩⟩ 7 5 =
        ⟨1, 1, ⟨[some ⟨7, Side.bid, 5⟩], 0⟩, ⟨[⟨1, 0, 5, 10, 1, 0⟩], []⟩⟩ :=
  perp_cancel_order_bankrupt_refused
    ⟨1, 1, ⟨[some ⟨7, Side.bid, 5⟩], 0⟩, ⟨[⟨1, 0, 5, 10, 1, 0⟩], []⟩⟩ 7 5
    (by decide)

/-- A successful removeById returns the removed order together with a tree
one order shorter, and the removed order has the requested id and was a
member of the tree. -/
lemma removeById_spec (oid : Int) :
    ∀ (l : List Order) (o : Order) (rest : List Order),
      removeById oid l = some (o, rest) →
      o.order_id = oid ∧ o ∈ l ∧ rest.length + 1 = l.length := by
  intro l
  induction l with
  | nil =>
      intro o rest h
      exact absurd h (by simp [removeById])
  | cons a t ih =>
      intro o rest h
      unfold removeById at h
      by_cases ha : a.order_id = oid
      · rw [if_pos ha] at h
        injection h with h2
        injection h2 with ho hrest
        subst ho
        subst hrest
        exact ⟨ha, List.mem_cons_self a t, rfl⟩
      · rw [if_neg ha] at h
        cases hrec : removeById oid t with
        | none =>
            rw [hrec] at h
            exact absurd h (by simp)
        | some pr =>
            rw [hrec] at h
            injection h with h2
            injection h2 with ho hrest
            subst ho
            obtain ⟨hid, hmem, hlen⟩ := ih pr.1 pr.2 (by rw [hrec])
            subst hrest
            exact ⟨hid, List.mem_cons_of_mem a hmem,
              by simp only [List.length_cons]; omega⟩

/-- A successful book cancel removes exactly one order from the book. -/
lemma cancel_order_length (b : Book) (oid : Int) (s : Side) (o : Order)
    (b2 : Book) (h : b.cancel_order oid s = Except.ok (o, b2)) :
    b2.bids.length + b2.asks.length + 1 = b.bids.length + b.asks.length := by
  cases s with
  | bid =>
      unfold Book.cancel_order at h
      cases hrm : removeById oid b.bids with
      | none =>
          rw [hrm] at h
          exact absurd h (by simp)
      | some pr =>
          rw [hrm] at h
          injection h with h2
          injection h2 with ho hb2
          obtain ⟨_, _, hlen⟩ := removeById_spec oid b.bids pr.1 pr.2 (by rw [hrm])
          rw [← hb2]
          simp only []
          omega
  | ask =>
      unfold Book.cancel_order at h
      cases hrm : removeById oid b.asks with
      | none =>
          rw [hrm] at h
          exact absurd h (by simp)
      | some pr =>
          rw [hrm] at h
          injection h with h2
          injection h2 with ho hb2
          obtain ⟨_, _, hlen⟩ := removeById_spec oid b.asks pr.1 pr.2 (by rw [hrm])
          rw [← hb2]
          simp only []
          omega

/-- C8: every error exit of perp_cancel_order is atomic — whatever error is
returned, the committed state equals the state before the call — and the
InvalidOwner exit in particular is reached only after the order was already
removed from the loaded book, so the discarded intermediate book holds one
order fewer than the committed one. -/
theorem perp_cancel_order_error_atomic (st : PerpCancelState) (mkt : Nat)
    (oid : Int) (e : MangoError)
    (herr : perp_cancel_order st mkt oid = Except.error e) :
    perp_cancel_committed st mkt oid = st ∧
      (e = MangoError.InvalidOwner →
        ∃ side o b2, st.perps.find_order_side mkt oid = some side ∧
          st.book.cancel_order oid side = Except.ok (o, b2) ∧
          b2.bids.length + b2.asks.length + 1 =
            st.book.bids.length + st.book.asks.length) := by
  constructor
  · unfold perp_cancel_committed
    rw [herr]
  · intro he
    subst he
    unfold perp_cancel_order at herr
    by_cases hb : st.is_bankrupt ≠ 0
    · rw [if_pos hb] at herr
      injection herr with h2
      exact absurd h2 (by simp)
    · rw [if_neg hb] at herr
      cases hfind : st.perps.find_order_side mkt oid with
      | none =>
          rw [hfind] at herr
          injection herr with h2
          exact absurd h2 (by simp)
      | some side =>
          cases hcancel : st.book.cancel_order oid side with
          | error e2 =>
              simp only [hfind, hcancel] at herr
              have he2 : e2 = MangoError.OrderNotOnBook := by
                cases side with
                | bid =>
                    unfold Book.cancel_order at hcancel
                    cases hrm : removeById oid st.book.bids with
                    | none =>
                        rw [hrm] at hcancel
                        injection hcancel with h2
                        exact h2.symm
                    | some pr =>
                        rw [hrm] at hcancel
                        exact absurd hcancel (by simp)
                | ask =>
                    unfold Book.cancel_order at hcancel
                    cases hrm : removeById oid st.book.asks with
                    | none =>
                        rw [hrm] at hcancel
                        injection hcancel with h2
                        exact h2.symm
                    | some pr =>
                        rw [hrm] at hcancel
                        exact absurd hcancel (by simp)
              subst he2
              exact absurd herr (by simp)
          | ok pr =>
              exact ⟨side, pr.1, pr.2, rfl, by rw [hcancel],
                cancel_order_length st.book oid side pr.1 pr.2 (by rw [hcancel])⟩

/-- True when a tracking slot is active and carries the given market and
order id. -/
def slotMatches (mkt : Nat) (oid : Int) : Option OpenOrderSlot → Bool
  | some sl => decide (sl.market = mkt) && decide (sl.order_id = oid)
  | none => false

/-- Number of active tracking slots carrying the given market and order id. -/
def countMatches (mkt : Nat) (oid : Int) (l : List (Option OpenOrderSlot)) : Nat :=
  (l.filter (slotMatches mkt oid)).length

lemma countMatches_cons (mkt : Nat) (oid : Int) (s : Option OpenOrderSlot)
    (t : List (Option OpenOrderSlot)) :
    countMatches mkt oid (s :: t) =
      (if slotMatches mkt oid s then 1 else 0) + countMatches mkt oid t := by
  by_cases h : slotMatches mkt oid s
  · simp [countMatches, List.filter_cons, h]
    omega
  · simp [countMatches, List.filter_cons, h]

lemma findOrderSideAux_eq_none_of_count_zero (mkt : Nat) (oid : Int) :
    ∀ l : List (Option OpenOrderSlot), countMatches mkt oid l = 0 →
      findOrderSideAux mkt oid l = none := by
  intro l
  induction l with
  | nil => intro _; rfl
  | cons s t ih =>
      intro h
      rw [countMatches_cons] at h
      cases s with
      | none =>
          simp only [findOrderSideAux]
          exact ih (by omega)
      | some sl =>
          by_cases hm : sl.market = mkt ∧ sl.order_id = oid
          · exact absurd h (by simp [slotMatches, hm.1, hm.2])
          · simp only [findOrderSideAux, if_neg hm]
            exact ih (by omega)

lemma one_le_countMatches_of_get (mkt : Nat) (oid : Int) :
    ∀ (l : List (Option OpenOrderSlot)) (i : Nat) (s : Option OpenOrderSlot),
      l.get? i = some s → slotMatches mkt oid s = true →
      1 ≤ countMatches mkt oid l := by
  intro l
  induction l with
  | nil =>
      intro i s hget _
      exact absurd hget (by simp)
  | cons a t ih =>
      intro i s hget hm
      rw [countMatches_cons]
      cases i with
      | zero =>
          simp only [List.get?] at hget
          injection hget with h2
          subst h2
          rw [if_pos hm]
          omega
      | succ j =>
          simp only [List.get?] at hget
          have := ih j s hget hm
          by_cases ha : slotMatches mkt oid a
          · rw [if_pos ha]; omega
          · rw [if_neg ha]; omega

lemma countMatches_set_none_eq_zero (mkt : Nat) (oid : Int) :
    ∀ (l : List (Option OpenOrderSlot)) (i : Nat) (s : Option OpenOrderSlot),
      l.get? i = some s → slotMatches mkt oid s = true →
      countMatches mkt oid l ≤ 1 →
      countMatches mkt oid (l.set i none) = 0 := by
  intro l
  induction l with
  | nil =>
      intro i s hget _ _
      exact absurd hget (by simp)
  | cons a t ih =>
      intro i s hget hm hle
      rw [countMatches_cons] at hle
      cases i with
      | zero =>
          simp only [List.get?] at hget
          injection hget with h2
          subst h2
          rw [if_pos hm] at hle
          simp only [List.set]
          rw [countMatches_cons]
          have hnone : (if slotMatches mkt oid none then 1 else 0) = 0 := rfl
          rw [hnone]
          omega
      | succ j =>
          simp only [List.get?] at hget
          have htail : 1 ≤ countMatches mkt oid t :=
            one_le_countMatches_of_get mkt oid t j s hget hm
          have ha : ¬ slotMatches mkt oid a = true := by
            intro hcontra
            rw [if_pos hcontra] at hle
            omega
          rw [if_neg ha] at hle
          simp only [List.set]
          rw [countMatches_cons, if_neg ha]
          have := ih j s hget hm (by omega)
          omega

/-- A successful book cancel on a side returns an order with the requested
id that was resting on that side. -/
lemma cancel_order_mem (b : Book) (oid : Int) (s : Side) (o : Order)
    (b2 : Book) (h : b.cancel_order oid s = Except.ok (o, b2)) :
    o.order_id = oid ∧ o ∈ b.sideOrders s := by
  cases s with
  | bid =>
      unfold Book.cancel_order at h
      cases hrm : removeById oid b.bids with
      | none =>
          rw [hrm] at h
          exact absurd h (by simp)
      | some pr =>
          rw [hrm] at h
          injection h with h2
          injection h2 with ho hb2
          obtain ⟨hid, hmem, _⟩ := removeById_spec oid b.bids pr.1 pr.2 (by rw [hrm])
          subst ho
          exact ⟨hid, hmem⟩
  | ask =>
      unfold Book.cancel_order at h
      cases hrm : removeById oid b.asks with
      | none =>
          rw [hrm] at h
          exact absurd h (by simp)
      | some pr =>
          rw [hrm] at h
          injection h with h2
          injection h2 with ho hb2
          obtain ⟨hid, hmem, _⟩ := removeById_spec oid b.asks pr.1 pr.2 (by rw [hrm])
          subst ho
          exact ⟨hid, hmem⟩

/-- C4: under a consistent account and book state — every resting order of
the calling account is tracked at its owner slot with the stored side of its
tree, and the order id occupies at most one tracking slot — a successful
cancel removes one order from the book and frees the tracking slot, so
cancelling the same order id again fails with InvalidOrderId and commits no
change at all: the reserved collateral is never released twice. -/
theorem perp_cancel_order_second_cancel_fails (st st' : PerpCancelState)
    (mkt : Nat) (oid : Int)
    (hbids : ∀ o ∈ st.book.bids, o.owner = st.account_key →
        st.perps.oos.get? o.owner_slot = some (some ⟨mkt, Side.bid, o.order_id⟩))
    (hasks : ∀ o ∈ st.book.asks, o.owner = st.account_key →
        st.perps.oos.get? o.owner_slot = some (some ⟨mkt, Side.ask, o.order_id⟩))
    (hcount : countMatches mkt oid st.perps.oos ≤ 1)
    (hok : perp_cancel_order st mkt oid = Except.ok st') :
    st'.perps.find_order_side mkt oid = none ∧
      perp_cancel_order st' mkt oid = Except.error MangoError.InvalidOrderId ∧
      perp_cancel_committed st' mkt oid = st' ∧
      st'.book.bids.length + st'.book.asks.length + 1 =
        st.book.bids.length + st.book.asks.length := by
  unfold perp_cancel_order at hok
  by_cases hb : st.is_bankrupt ≠ 0
  · rw [if_pos hb] at hok
    exact absurd hok (by simp)
  · rw [if_neg hb] at hok
    cases hfind : st.perps.find_order_side mkt oid with
    | none =>
        simp only [hfind] at hok
        exact absurd hok (by simp)
    | some side =>
        cases hcancel : st.book.cancel_order oid side with
        | error e2 =>
            simp only [hfind, hcancel] at hok
            exact absurd hok (by simp)
        | ok pr =>
            simp only [hfind, hcancel] at hok
            by_cases howner : pr.1.owner = st.account_key
            · rw [if_pos howner] at hok
              cases hrm : st.perps.remove_order pr.1.owner_slot pr.1.quantity with
              | error e3 =>
                  simp only [hrm] at hok
                  exact absurd hok (by simp)
              | ok p2 =>
                  simp only [hrm] at hok
                  injection hok with hok2
                  subst hok2
                  obtain ⟨hid, hmem⟩ :=
                    cancel_order_mem st.book oid side pr.1 pr.2 (by rw [hcancel])
                  have hslot : st.perps.oos.get? pr.1.owner_slot =
                      some (some ⟨mkt, side, oid⟩) := by
                    cases side with
                    | bid =>
                        have := hbids pr.1 hmem howner
                        rw [hid] at this
                        exact this
                    | ask =>
                        have := hasks pr.1 hmem howner
                        rw [hid] at this
                        exact this
                  have hp2 : p2.oos = st.perps.oos.set pr.1.owner_slot none := by
                    unfold MangoAccountPerps.remove_order at hrm
                    rw [hslot] at hrm
                    injection hrm with h2
                    rw [← h2]
                  have hmatch : slotMatches mkt oid (some ⟨mkt, side, oid⟩) = true := by
                    simp [slotMatches]
                  have hcount0 : countMatches mkt oid p2.oos = 0 := by
                    rw [hp2]
                    exact countMatches_set_none_eq_zero mkt oid st.perps.oos
                      pr.1.owner_slot (some ⟨mkt, side, oid⟩) hslot hmatch hcount
                  have hfind2 : MangoAccountPerps.find_order_side p2 mkt oid = none :=
                    findOrderSideAux_eq_none_of_count_zero mkt oid p2.oos hcount0
                  have hsecond : perp_cancel_order
                      { st with perps := p2, book := pr.2 } mkt oid =
                      Except.error MangoError.InvalidOrderId := by
                    unfold perp_cancel_order
                    rw [if_neg (by simpa using hb)]
                    simp only [hfind2]
                  refine ⟨hfind2, hsecond, ?_, ?_⟩
                  · unfold perp_cancel_committed
                    rw [hsecond]
                  · exact cancel_order_length st.book oid side pr.1 pr.2
                      (by rw [hcancel])
            · rw [if_neg howner] at hok
              exact absurd hok (by simp)

/-- C4 witness: account 1 cancels its resting order with id 5 on market 7;
the cancel succeeds, empties the book and frees the slot, and a second
cancel of the same id fails with InvalidOrderId leaving the state as is. -/
theorem perp_cancel_order_second_cancel_fails_witness :
    MangoAccountPerps.find_order_side ⟨[none], 0⟩ 7 5 = none ∧
      perp_cancel_order ⟨1, 0, ⟨[none], 0⟩, ⟨[], []⟩⟩ 7 5 =
        Except.error MangoError.InvalidOrderId ∧
      perp_cancel_committed ⟨1, 0, ⟨[none], 0⟩, ⟨[], []⟩⟩ 7 5 =
        ⟨1, 0, ⟨[none], 0⟩, ⟨[], []⟩⟩ ∧
      ([] : List Order).length + ([] : List Order).length + 1 =
        ([⟨1, 0, 5, 10, 2, 0⟩] : List Order).length + ([] : List Order).length :=
  perp_cancel_order_second_cancel_fails
    ⟨1, 0, ⟨[some ⟨7, Side.bid, 5⟩], 2⟩, ⟨[⟨1, 0, 5, 10, 2, 0⟩], []⟩⟩
    ⟨1, 0, ⟨[none], 0⟩, ⟨[], []⟩⟩ 7 5
    (by decide) (by decide) (by decide) rfl

/-- C8 witness: the owner-mismatch abort at a concrete state commits the
unchanged pre-call state even though the order had been removed from the
loaded book before the mismatch was detected. -/
theorem perp_cancel_order_error_atomic_witness :
    perp_cancel_committed
        ⟨1, 0, ⟨[some ⟨7, Side.bid, 5⟩], 0⟩, ⟨[⟨2, 0, 5, 10, 1, 0⟩], []⟩⟩ 7 5 =
      ⟨1, 0, ⟨[some ⟨7, Side.bid, 5⟩], 0⟩, ⟨[⟨2, 0, 5, 10, 1, 0⟩], []⟩⟩ ∧
    (MangoError.InvalidOwner = MangoError.InvalidOwner →
      ∃ side o b2,
        MangoAccountPerps.find_order_side ⟨[some ⟨7, Side.bid, 5⟩], 0⟩ 7 5 =
          some side ∧
        Book.cancel_order ⟨[⟨2, 0, 5, 10, 1, 0⟩], []⟩ 5 side =
          Except.ok (o, b2) ∧
        b2.bids.length + b2.asks.length + 1 =
          ([⟨2, 0, 5, 10, 1, 0⟩] : List Order).length + ([] : List Order).length) :=
  perp_cancel_order_error_atomic
    ⟨1, 0, ⟨[some ⟨7, Side.bid, 5⟩], 0⟩, ⟨[⟨2, 0, 5, 10, 1, 0⟩], []⟩⟩ 7 5
    MangoError.InvalidOwner rfl

/-- Account meta of the instruction account list (client.rs), with pubkeys
as Nat. -/
structure AccountMeta where
  pubkey : Nat
  is_signer : Bool
  is_writable : Bool
deriving DecidableEq

/-- to_readonly_account_meta from client.rs. -/
def to_readonly_account_meta (p : Nat) : AccountMeta :=
  { pubkey := p, is_signer := false, is_writable := false }

/-- to_writable_account_meta from client.rs. -/
def to_writable_account_meta (p : Nat) : AccountMeta :=
  { pubkey := p, is_signer := false, is_writable := true }

/-- Per-token registry entry of the group context: the first bank and the
oracle of the token (context.rs MintInfo view used by client.rs). -/
structure MintInfo where
  first_bank : Nat
  oracle : Nat

/-- Group context lookups used by the account-meta derivation. -/
structure GroupContext where
  mint_info : Nat → MintInfo
  perp_market_address : Nat → Nat

/-- Active slots of one mango account as seen by the client derivation:
active token indexes, serum3 open-orders account keys, and active perp
market indexes, each in account slot order. -/
structure AccountView where
  tokens : List Nat
  serum_oos : List Nat
  perps : List Nat

/-- One step of the itertools unique() pass: keep the first occurrence of
each element, preserving order. -/
def uniqueFirstStep (acc : List Nat) (x : Nat) : List Nat :=
  if x ∈ acc then acc else acc ++ [x]

/-- itertools unique(): deduplicate keeping first occurrences in order. -/
def uniqueFirst (l : List Nat) : List Nat :=
  l.foldl uniqueFirstStep []

lemma uniqueFirst_loop_mem :
    ∀ (l acc : List Nat) (x : Nat),
      x ∈ l.foldl uniqueFirstStep acc ↔ x ∈ acc ∨ x ∈ l := by
  intro l
  induction l with
  | nil => simp
  | cons a t ih =>
      intro acc x
      simp only [List.foldl_cons]
      rw [ih]
      unfold uniqueFirstStep
      by_cases ha : a ∈ acc
      · rw [if_pos ha]
        simp only [List.mem_cons]
        constructor
        · rintro (h | h)
          · exact Or.inl h
          · exact Or.inr (Or.inr h)
        · rintro (h | h | h)
          · exact Or.inl h
          · exact Or.inl (h ▸ ha)
          · exact Or.inr h
      · rw [if_neg ha]
        simp only [List.mem_append, List.mem_cons, List.mem_singleton]
        tauto

lemma uniqueFirst_loop_nodup :
    ∀ (l acc : List Nat), acc.Nodup → (l.foldl uniqueFirstStep acc).Nodup := by
  intro l
  induction l with
  | nil => intro acc h; simpa using h
  | cons a t ih =>
      intro acc hacc
      simp only [List.foldl_cons]
      apply ih
      unfold uniqueFirstStep
      by_cases ha : a ∈ acc
      · rw [if_pos ha]; exact hacc
      · rw [if_neg ha]
        rw [List.nodup_append]
        refine ⟨hacc, List.nodup_singleton a, ?_⟩
        intro x hx hx1
        simp only [List.mem_singleton] at hx1
        exact ha (hx1 ▸ hx)

lemma mem_uniqueFirst (l : List Nat) (x : Nat) : x ∈ uniqueFirst l ↔ x ∈ l := by
  unfold uniqueFirst
  rw [uniqueFirst_loop_mem]
  simp

lemma uniqueFirst_nodup (l : List Nat) : (uniqueFirst l).Nodup :=
  uniqueFirst_loop_nodup l [] List.nodup_nil

/-- derive_liquidation_health_check_remaining_account_metas from client.rs:
the deduplicated (first-occurrence order) union of active token indexes of
liqee and liqor yields one bank meta and one oracle meta each, banks
writable exactly for the asset and liability indexes; then the perp market
addresses of both accounts, then their serum3 open-orders accounts, all
readonly, appended in that fixed order. -/
def derive_liquidation_health_check_remaining_account_metas
    (ctx : GroupContext) (liqee liqor : AccountView)
    (asset_token_index liab_token_index : Nat) : List AccountMeta :=
  let token_indexes := uniqueFirst (liqee.tokens ++ liqor.tokens)
  let banks := token_indexes.map (fun ti =>
    ((ctx.mint_info ti).first_bank,
      decide (ti = asset_token_index) || decide (ti = liab_token_index)))
  let oracles := token_indexes.map (fun ti => (ctx.mint_info ti).oracle)
  let serum_oos := liqee.serum_oos ++ liqor.serum_oos
  let perp_markets := (liqee.perps ++ liqor.perps).map ctx.perp_market_address
  (banks.map (fun bw =>
      { pubkey := bw.1, is_signer := false, is_writable := bw.2 : AccountMeta }))
    ++ oracles.map to_readonly_account_meta
    ++ perp_markets.map to_readonly_account_meta
    ++ serum_oos.map to_readonly_account_meta

/-- C7: the derived liquidation health-check account list is, in this fixed
order, the bank metas then the oracle metas over the deduplicated union of
both accounts token indexes — each implicated token contributing exactly one
bank and one oracle even when active in both accounts — then the perp market
metas and the open-orders metas of both accounts; its pubkeys cover exactly
the union of what the two accounts active slots implicate. -/
theorem derive_liquidation_health_metas_union_and_order (ctx : GroupContext)
    (liqee liqor : AccountView) (ati lti : Nat) :
    derive_liquidation_health_check_remaining_account_metas ctx liqee liqor ati lti =
        (uniqueFirst (liqee.tokens ++ liqor.tokens)).map (fun ti =>
            { pubkey := (ctx.mint_info ti).first_bank, is_signer := false,
              is_writable := decide (ti = ati) || decide (ti = lti) : AccountMeta })
          ++ (uniqueFirst (liqee.tokens ++ liqor.tokens)).map (fun ti =>
              to_readonly_account_meta (ctx.mint_info ti).oracle)
          ++ ((liqee.perps ++ liqor.perps).map (fun mi =>
              to_readonly_account_meta (ctx.perp_market_address mi)))
          ++ ((liqee.serum_oos ++ liqor.serum_oos).map to_readonly_account_meta) ∧
      (uniqueFirst (liqee.tokens ++ liqor.tokens)).Nodup ∧
      (∀ ti, ti ∈ uniqueFirst (liqee.tokens ++ liqor.tokens) ↔
        ti ∈ liqee.tokens ∨ ti ∈ liqor.tokens) ∧
      (∀ pk,
        pk ∈ (derive_liquidation_health_check_remaining_account_metas
            ctx liqee liqor ati lti).map AccountMeta.pubkey ↔
          (∃ ti, (ti ∈ liqee.tokens ∨ ti ∈ liqor.tokens) ∧
              ((ctx.mint_info ti).first_bank = pk ∨ (ctx.mint_info ti).oracle = pk)) ∨
            (∃ mi, (mi ∈ liqee.perps ∨ mi ∈ liqor.perps) ∧
              ctx.perp_market_address mi = pk) ∨
            pk ∈ liqee.serum_oos ∨ pk ∈ liqor.serum_oos) := by
  refine ⟨?_, uniqueFirst_nodup _, ?_, ?_⟩
  · simp only [derive_liquidation_health_check_remaining_account_metas,
      List.map_map]
    rfl
  · intro ti
    rw [mem_uniqueFirst]
    exact List.mem_append
  · intro pk
    simp only [derive_liquidation_health_check_remaining_account_metas,
      List.map_map, List.map_append, List.mem_append, List.mem_map,
      mem_uniqueFirst, Function.comp, to_readonly_account_meta]
    constructor
    · intro h
      aesop
    · intro h
      aesop

/-- Side argument of a serum3 cancel (client.rs Serum3Side). -/
inductive Serum3Side where
  | bid
  | ask
deriving DecidableEq

/-- One attempted serum3 cancel submission: the side and order id tried, and
whether the submission succeeded. -/
structure CancelAttempt where
  side : Serum3Side
  the_order_id : Nat
  succeeded : Bool
deriving DecidableEq

/-- One loop iteration of serum3_cancel_all_orders: a nonzero order id is
attempted on the Bid side and then on the Ask side — each submission outcome
recorded but discarded, as the source discards each Result with .ok() — and
the id is appended to the returned list either way; a zero id is skipped. -/
def serum3CancelStep (f : Serum3Side → Nat → Bool)
    (acc : List CancelAttempt × List Nat) (oid : Nat) :
    List CancelAttempt × List Nat :=
  if oid ≠ 0 then
    (acc.1 ++ [⟨Serum3Side.bid, oid, f Serum3Side.bid oid⟩,
               ⟨Serum3Side.ask, oid, f Serum3Side.ask oid⟩],
     acc.2 ++ [oid])
  else acc

/-- serum3_cancel_all_orders from client.rs: iterate the stored order ids of
the open-orders account; f models the outcome of each individual
serum3_cancel_order submission. The first component is the trace of
attempted cancels, the second the returned list of order ids. -/
def serum3_cancel_all_orders (f : Serum3Side → Nat → Bool)
    (orders : List Nat) : List CancelAttempt × List Nat :=
  orders.foldl (serum3CancelStep f) ([], [])

lemma serum3_cancel_loop (f : Serum3Side → Nat → Bool) :
    ∀ (orders : List Nat) (a : List CancelAttempt) (b : List Nat),
      orders.foldl (serum3CancelStep f) (a, b) =
        (a ++ (orders.filter (fun oid => decide (oid ≠ 0))).flatMap
            (fun oid => [⟨Serum3Side.bid, oid, f Serum3Side.bid oid⟩,
                         ⟨Serum3Side.ask, oid, f Serum3Side.ask oid⟩]),
         b ++ orders.filter (fun oid => decide (oid ≠ 0))) := by
  intro orders
  induction orders with
  | nil => intro a b; simp
  | cons o t ih =>
      intro a b
      by_cases ho : o = 0
      · subst ho
        simp only [List.foldl_cons, serum3CancelStep]
        rw [if_neg (by simp)]
        rw [ih]
        simp [List.filter_cons]
      · simp only [List.foldl_cons, serum3CancelStep]
        rw [if_pos ho]
        rw [ih]
        simp [List.filter_cons, ho, List.append_assoc]

/-- C9: the bulk cancel returns exactly the nonzero stored order ids, in
order, and for each of them attempts a cancel on the Bid side and then on
the Ask side, never resolving the true side first; each submission outcome
is ignored, so the returned list does not depend on which submissions
succeed. -/
theorem serum3_cancel_all_orders_spec (f : Serum3Side → Nat → Bool)
    (orders : List Nat) :
    (serum3_cancel_all_orders f orders).2 =
        orders.filter (fun oid => decide (oid ≠ 0)) ∧
      (serum3_cancel_all_orders f orders).1 =
        (orders.filter (fun oid => decide (oid ≠ 0))).flatMap
          (fun oid => [⟨Serum3Side.bid, oid, f Serum3Side.bid oid⟩,
                       ⟨Serum3Side.ask, oid, f Serum3Side.ask oid⟩]) ∧
      ∀ g, (serum3_cancel_all_orders f orders).2 =
        (serum3_cancel_all_orders g orders).2 := by
  have h1 := serum3_cancel_loop f orders [] []
  refine ⟨?_, ?_, ?_⟩
  · unfold serum3_cancel_all_orders
    rw [h1]
    simp
  · unfold serum3_cancel_all_orders
    rw [h1]
    simp
  · intro g
    have h2 := serum3_cancel_loop g orders [] []
    unfold serum3_cancel_all_orders
    rw [h1, h2]

end MangoV4
